import Mathlib

/-!
Verification of the AtaxxAgent tournament engine.

This file gives a shallow embedding, in Lean 4, of the strategy-dispatch
and tournament-orchestration core of the AtaxxAgent repository:

* `move_scores.py` (the `MoveScoreManager` score broadcast store),
* `ab_mcts_domain_agent.py` (the hybrid dispatch agent),
* `tournament_runner.py` (agent resolution, board loading, the game loop
  and the double round-robin tournament driver),
* the board parser and first-player handling of `game_ui.py`.

Pure functions of the Python source become Lean functions; the mutable
`MoveScoreManager` and the tournament bookkeeping become explicit state
passing.  Python `dict`s keyed by moves become insertion-ordered
association lists with an upsert operation (`dictInsert`), which is the
observable semantics of a CPython dict; the results `dict` keyed by the
two agent identity strings becomes a total function `String → AgentStats`
(lookups only ever happen at the two configured identities).  Python
`int`s become `Int` (counters that only grow are `Nat`), and numeric
scores, whose values are never inspected by the code under study, are
modelled as `Int`.
-/

/-! ## Moves and the score broadcast store (`move_scores.py`) -/

/-- A move is a 4-tuple (source row, source col, destination row,
destination col), as produced by the agents and stored by
`MoveScoreManager`. -/
abbrev Move := Int × Int × Int × Int

/-- Insertion-ordered association list upsert: the semantics of
`d[k] = v` on a CPython dict.  If the key is present its value is
replaced in place, otherwise the pair is appended. -/
def dictInsert : List (Move × Int) → Move → Int → List (Move × Int)
  | [], k, v => [(k, v)]
  | (k1, v1) :: rest, k, v =>
    if k1 = k then (k1, v) :: rest else (k1, v1) :: dictInsert rest k v

/-- The semantics of Python `d.update(l)`: upsert every pair of `l` in
order. -/
def dictUpdate (d : List (Move × Int)) (l : List (Move × Int)) : List (Move × Int) :=
  l.foldl (fun acc p => dictInsert acc p.1 p.2) d

/-- The semantics of Python `d.get(m)`: value of the first entry with the
given key, if any. -/
def dictLookup : List (Move × Int) → Move → Option Int
  | [], _ => none
  | (k, v) :: rest, m => if k = m then some v else dictLookup rest m

/-- State of `MoveScoreManager` (`move_scores.py`, lines 6-62): the score
dict `_scores`, the `_enabled` flag and the `_agent_name` of whichever
agent is currently thinking.  The `threading.Lock` makes each method an
atomic state transition, which is exactly how we model the methods: as
pure functions from state to state. -/
structure MoveScoreManager where
  scores : List (Move × Int)
  enabled : Bool
  agent_name : String

/-- `MoveScoreManager.enable_score_collection` (lines 14-18): set
`_enabled`, clear `_scores`, record the agent name. -/
def enable_score_collection (name : String) (_s : MoveScoreManager) : MoveScoreManager :=
  { scores := [], enabled := true, agent_name := name }

/-- `MoveScoreManager.disable_score_collection` (lines 20-23): clear the
flag and the agent name; `_scores` is left untouched. -/
def disable_score_collection (s : MoveScoreManager) : MoveScoreManager :=
  { s with enabled := false, agent_name := "" }

/-- `MoveScoreManager.store_move_score` (lines 29-32): upsert one entry,
but only when collection is enabled. -/
def store_move_score (m : Move) (v : Int) (s : MoveScoreManager) : MoveScoreManager :=
  if s.enabled then { s with scores := dictInsert s.scores m v } else s

/-- `MoveScoreManager.store_move_scores` (lines 34-37):
`self._scores.update(move_scores)`, but only when collection is
enabled. -/
def store_move_scores (l : List (Move × Int)) (s : MoveScoreManager) : MoveScoreManager :=
  if s.enabled then { s with scores := dictUpdate s.scores l } else s

/-- `MoveScoreManager.get_move_scores` (lines 39-41): a copy of the
current entries. -/
def get_move_scores (s : MoveScoreManager) : List (Move × Int) :=
  s.scores

/-- `MoveScoreManager.clear_scores` (lines 47-49): empty the entries. -/
def clear_scores (s : MoveScoreManager) : MoveScoreManager :=
  { s with scores := [] }

/-- One write operation performed by an agent while it is thinking:
either `store_move_score` or `store_move_scores`. -/
inductive RecOp where
  | store (m : Move) (v : Int)
  | storeMany (l : List (Move × Int))

/-- Apply one write operation to the store. -/
def applyRecOp (s : MoveScoreManager) : RecOp → MoveScoreManager
  | .store m v => store_move_score m v s
  | .storeMany l => store_move_scores l s

/-- Apply a sequence of write operations to the store, in order. -/
def applyRecOps (ops : List RecOp) (s : MoveScoreManager) : MoveScoreManager :=
  ops.foldl applyRecOp s

/-- The flat list of (move, score) pairs written by a sequence of
operations, in write order. -/
def flattenRecOps : List RecOp → List (Move × Int)
  | [] => []
  | .store m v :: rest => (m, v) :: flattenRecOps rest
  | .storeMany l :: rest => l ++ flattenRecOps rest

/-- The last value written for a given move by a flat pair list, if any:
later entries shadow earlier ones. -/
def lastEntry : List (Move × Int) → Move → Option Int
  | [], _ => none
  | (k, v) :: rest, m =>
    match lastEntry rest m with
    | some w => some w
    | none => if k = m then some v else none

/-- The last value written for a given move across a sequence of write
operations, if any: the specification-side reading of "last write for a
given move wins". -/
def lastWrite (ops : List RecOp) (m : Move) : Option Int :=
  lastEntry (flattenRecOps ops) m

/-- One agent turn as seen by the score store
(`tournament_runner.play_game`, lines 174-178): enable collection for
the moving agent, let `get_move` perform its writes (`callOps` lists the
writes that actually happened before the call returned or raised), and
disable collection in a `finally` block.  The `raised` flag records
whether `get_move` raised; the `finally` block runs either way, so the
definition does not depend on it. -/
def runTurn (name : String) (callOps : List RecOp) (_raised : Bool)
    (s : MoveScoreManager) : MoveScoreManager :=
  disable_score_collection (applyRecOps callOps (enable_score_collection name s))

/-! ## The hybrid dispatch agent (`ab_mcts_domain_agent.py`) -/

/-- Which wrapped strategy the hybrid agent delegates to: the tactical
alpha-beta `MinimaxAgent` (`self.ab_agent`) or the sampling
`MCTSDomainAgent` (`self.mcts_agent`). -/
inductive DispatchChoice where
  | abAgent
  | mctsAgent
deriving DecidableEq

/-- The dispatcher-held state of `ABMCTSDomainAgent`: besides its two
wrapped strategies (external collaborators, out of scope) it holds only
the immutable `transition_threshold` set in `__init__`. -/
structure ABMCTSDomainAgentState where
  transition_threshold : Int

/-- `ABMCTSDomainAgent.get_move` (lines 11-20), abstracted over the
external `state.get_empty_cells()` count: if `empty_cells >
transition_threshold` delegate to the alpha-beta agent, otherwise to the
MCTS agent.  The returned second component is the dispatcher state after
the call, which the method never mutates. -/
def abmcts_get_move (a : ABMCTSDomainAgentState) (empty_cells : Int) :
    DispatchChoice × ABMCTSDomainAgentState :=
  (if empty_cells > a.transition_threshold then .abAgent else .mctsAgent, a)

/-! ## First-player resolution (`tournament_runner.py` line 31,
`game_ui.py` line 1300) -/

/-- `TournamentRunner.__init__` line 31:
`self.first_player = 1 if first_player == "B" else -1`. -/
def first_player_marker (first_player : String) : Int :=
  if first_player = "B" then 1 else -1

/-- The default of the `--first-player` flag in `game_ui.main`
(line 1300), which is passed through `AtaxxGameUI.__init__` to
`TournamentRunner.__init__`. -/
def ui_default_first_player : String := "X"

/-! ## Agent name resolution (`tournament_runner.setup_game`,
lines 62-84) -/

/-- Whether `sub` is an initial segment of `l`. -/
def startsWithSeg : List Char → List Char → Bool
  | [], _ => true
  | _ :: _, [] => false
  | c :: cs, d :: ds => c = d && startsWithSeg cs ds

/-- Whether `sub` occurs contiguously somewhere in `l`. -/
def hasSubSeg (sub : List Char) : List Char → Bool
  | [] => sub.isEmpty
  | c :: rest => startsWithSeg sub (c :: rest) || hasSubSeg sub rest

/-- The semantics of the Python test `sub in s` on strings: `sub` occurs
as a contiguous substring of `s`. -/
def containsSubstr (s sub : String) : Bool :=
  hasSubSeg sub.data s.data

/-- The tournament configuration fields of `TournamentRunner.__init__`
that `setup_game` consults when resolving an agent name. -/
structure TournamentConfig where
  iterations : Int
  transition_threshold : Int
  depths : Int
  use_tournament : Bool

/-- The concrete agent that a name resolves to, with the constructor
arguments `setup_game` passes. -/
inductive AgentSpec where
  | minimaxAgent (max_depth : Int)
  | mctsAgent (iterations : Int)
  | abMctsDomainAgent (iterations : Int) (transition_threshold : Int)
      (ab_depth : Int) (tournament : Bool)
  | mctsDomainAgent (iterations : Int) (tournament : Bool)
deriving DecidableEq

/-- The exception `setup_game` can raise while resolving a name: either
the explicit `ValueError("Unknown algorithm: ...")` of the final `else`,
or the `ValueError` raised by `int(...)` when the last
underscore-separated token of the name is not an integer literal. -/
inductive SetupError where
  | unknownAlgorithm (name : String)
  | intValueError (token : String)
deriving DecidableEq

/-- The semantics of Python `s.split('_')`: segments between the
underscores (always at least one segment, possibly empty ones). -/
def splitOnUnderscore : List Char → List (List Char)
  | [] => [[]]
  | c :: rest =>
    match splitOnUnderscore rest with
    | [] => [[]]
    | seg :: segs => if c = '_' then [] :: seg :: segs else (c :: seg) :: segs

/-- Decimal digit value of a character, if it is one. -/
def digitVal (c : Char) : Option Nat :=
  if c = '0' then some 0 else if c = '1' then some 1 else if c = '2' then some 2
  else if c = '3' then some 3 else if c = '4' then some 4 else if c = '5' then some 5
  else if c = '6' then some 6 else if c = '7' then some 7 else if c = '8' then some 8
  else if c = '9' then some 9 else none

/-- Accumulator loop for `pyInt`. -/
def pyIntAux : List Char → Nat → Option Nat
  | [], acc => some acc
  | c :: rest, acc =>
    match digitVal c with
    | some d => pyIntAux rest (10 * acc + d)
    | none => none

/-- The semantics of Python `int(token)` on the tokens that occur here:
a nonempty all-digit token parses to its decimal value, anything else
raises `ValueError` (modelled as `none`). -/
def pyInt : List Char → Option Nat
  | [] => none
  | l => pyIntAux l 0

/-- The last underscore-separated token of a name:
`algo_name.split('_')[-1]` (Python `split` always returns a nonempty
list, so the `[-1]` never fails). -/
def lastToken (name : String) : List Char :=
  (splitOnUnderscore name.data).getLastD []

/-- The iteration budget for a domain agent name:
`int(algo_name.split('_')[-1]) if '_' in algo_name else self.iterations`
(lines 70 and 78).  When the last token is not an integer literal,
`int` raises `ValueError`. -/
def iterCount (cfg : TournamentConfig) (name : String) : Except SetupError Int :=
  if name.data.contains '_' then
    match pyInt (lastToken name) with
    | some n => .ok (n : Int)
    | none => .error (.intValueError (String.mk (lastToken name)))
  else .ok cfg.iterations

/-- `setup_game`, lines 64-84: resolve one configured identity string to
a concrete agent, or raise. -/
def resolveAgent (cfg : TournamentConfig) (name : String) : Except SetupError AgentSpec :=
  if name = "Minimax" ∨ name = "Minimax+AB" then
    .ok (.minimaxAgent cfg.depths)
  else if name = "MCTS" then
    .ok (.mctsAgent cfg.iterations)
  else if containsSubstr name "AB+MCTS_Domain" then
    match iterCount cfg name with
    | .ok n => .ok (.abMctsDomainAgent n cfg.transition_threshold cfg.depths
        cfg.use_tournament)
    | .error e => .error e
  else if containsSubstr name "MCTS_Domain" then
    match iterCount cfg name with
    | .ok n => .ok (.mctsDomainAgent n cfg.use_tournament)
    | .error e => .error e
  else .error (.unknownAlgorithm name)

/-- The `for algo_name in [self.algo1, self.algo2]` loop of
`setup_game`: resolve both identities in order; the first failure
propagates out of `__init__`, before any game starts. -/
def setupAgents (cfg : TournamentConfig) (algo1 algo2 : String) :
    Except SetupError (AgentSpec × AgentSpec) :=
  match resolveAgent cfg algo1 with
  | .error e => .error e
  | .ok a1 =>
    match resolveAgent cfg algo2 with
    | .error e => .error e
    | .ok a2 => .ok (a1, a2)

/-! ## Board files (`tournament_runner.py` lines 86-119 and
`game_ui.load_map_from_file`, lines 1238-1269) -/

/-- The semantics of Python `line.strip()`: drop whitespace from both
ends. -/
def pyStrip (l : List Char) : List Char :=
  ((l.dropWhile Char.isWhitespace).reverse.dropWhile Char.isWhitespace).reverse

/-- `pyStrip` packaged on strings. -/
def pyStripStr (s : String) : String :=
  String.mk (pyStrip s.data)

/-- Whether `suf` is a final segment of `l`. -/
def endsWithSeg (suf l : List Char) : Bool :=
  startsWithSeg suf.reverse l.reverse

/-- The semantics of Python `f.endswith(suf)`. -/
def pyEndsWith (s suf : String) : Bool :=
  endsWithSeg suf.data s.data

/-- A 7x7 board of cell values, `np.zeros((7, 7), dtype=int)` style. -/
abbrev Board := Fin 7 → Fin 7 → Int

/-- The value a cell of a fresh `np.zeros` board holds: empty. -/
def empty_cell_value : Int := 0

/-- The cell value `tournament_runner.load_map_from_file` (lines 93-100)
assigns for one character: `B` and `W` are the two players' pieces, `#`
is written as `0`, and any other character leaves the zero
initialization in place. -/
def tournament_char_cell (ch : Char) : Int :=
  if ch = 'B' then 1
  else if ch = 'W' then -1
  else if ch = '#' then 0
  else 0

/-- The board built by `tournament_runner.load_map_from_file` from the
lines of a file: each of the first 7 characters of each of the first 7
(stripped) lines is translated by `tournament_char_cell`; every other
cell keeps the zero initialization. -/
def load_map_board (lines : List String) : Board := fun r c =>
  let line := pyStripStr ((lines.take 7).getD r.val "")
  match (line.data.take 7)[c.val]? with
  | some ch => tournament_char_cell ch
  | none => 0

/-- The translation of one character in `game_ui.load_map_from_file`
(lines 1257-1263): `W` and `B` are pieces (with the opposite sign
convention), `#` appends `0`, and any other character appends nothing at
all, shortening the row. -/
def game_ui_char_cell (ch : Char) : Option Int :=
  if ch = 'W' then some 1
  else if ch = 'B' then some (-1)
  else if ch = '#' then some 0
  else none

/-- One row as built by `game_ui.load_map_from_file`. -/
def game_ui_parse_row (line : String) : List Int :=
  line.data.filterMap game_ui_char_cell

/-- The cell value the `game_ui.load_map_from_file` comment documents
for `#`: the line `W = 1 (white), B = -1 (black), # = -2 (blocked),
empty = 0` (line 1251), matched by the renderer's blocked-cell test
`board[row][col] == -2` (line 254). -/
def game_ui_documented_blocked : Int := -2

/-- `tournament_runner.get_default_board` (lines 111-119): the
hard-coded fallback layout, two pieces per side at opposite corners of
the 7x7 board. -/
def get_default_board : Board := fun r c =>
  if r.val = 0 ∧ c.val = 0 then 1
  else if r.val = 6 ∧ c.val = 6 then 1
  else if r.val = 0 ∧ c.val = 6 then -1
  else if r.val = 6 ∧ c.val = 0 then -1
  else 0

/-- Outcome of opening and reading a map file: the two exception classes
`load_map_from_file` catches, or the stripped lines of the file. -/
inductive ReadResult where
  | fileNotFound
  | otherError
  | content (lines : List String)

/-- The file-system facts `setup_game` and `load_map_from_file`
consult: whether the `map` directory exists, what `os.listdir` returns
for it, and what reading a given file yields. -/
structure FileSys where
  map_dir_exists : Bool
  map_dir_files : List String
  read : String → ReadResult

/-- The runtime error raised by reading an attribute that was never
assigned. -/
inductive PyError where
  | attributeError (attr : String)
deriving DecidableEq

/-- `setup_game` lines 51-53: `self.available_maps` is assigned only
inside `if os.path.exists(map_dir)`; when the directory is absent the
attribute simply never exists, modelled as `none`. -/
def available_maps (fs : FileSys) : Option (List String) :=
  if fs.map_dir_exists then
    some (fs.map_dir_files.filter (fun f => pyEndsWith f ".txt"))
  else none

/-- `tournament_runner.load_map_from_file` (lines 86-109): read and
parse the file; `FileNotFoundError` and every other exception are caught
and recovered by warning and returning the default board. -/
def load_map_from_file (fs : FileSys) (filename : String) : Board :=
  match fs.read filename with
  | .fileNotFound => get_default_board
  | .otherError => get_default_board
  | .content lines => load_map_board (lines.map pyStripStr)

/-- The board-selection part of `setup_game` (lines 50-60): with no
configured map file the default board is used; otherwise
`self.map_file in self.available_maps` is evaluated — an
`AttributeError` if the attribute was never assigned — and the file is
loaded when listed, with the default board otherwise. -/
def setup_game_board (fs : FileSys) (map_file : Option String) : Except PyError Board :=
  match map_file with
  | none => .ok get_default_board
  | some f =>
    match available_maps fs with
    | none => .error (.attributeError "available_maps")
    | some maps =>
      if f ∈ maps then .ok (load_map_from_file fs f)
      else .ok get_default_board

/-! ## The game loop and the tournament driver
(`tournament_runner.play_game`, lines 121-247, and
`tournament_runner.run_tournament`, lines 249-302)

The board-rule collaborator (`AtaxxState`) and the concrete agents are
external: a game is abstracted as a script of loop iterations — what the
loop observes at each pass through its body — plus the winner that
`state.get_winner()` reports once the loop exits with the game over.
The `running` flag is process-wide and can be flipped by the driving
event loop at any suspension point or around an agent call; each event
therefore carries the value of `running` the loop observes at its next
check. -/

/-- One iteration of the `while not state.is_game_over() and
self.running` loop of `play_game`:

* `pauseTick`: the `self.paused` branch — sleep and re-check, with the
  value of `running` observed after the sleep;
* `passTurn`: `state.get_legal_moves()` is empty — flip the current
  player and continue (not a move);
* `agentTurn`: an agent is asked for a move; `runningAfterCall` is the
  value of `running` observed right after `get_move` returns,
  `x_pieces`/`o_pieces` are the piece counts after the move is applied,
  and `runningAfterDelay` is the value of `running` observed after the
  optional inter-move delay. -/
inductive LoopEvent where
  | pauseTick (runningAfter : Bool)
  | passTurn
  | agentTurn (mv : Option Move) (runningAfterCall : Bool)
      (x_pieces o_pieces : Int) (runningAfterDelay : Bool)

/-- The loop-local state of `play_game`: the `running` flag as last
observed, `move_count`, and the most recent `x_pieces`/`o_pieces`
(initialized to `0, 0` at line 150). -/
structure LoopSt where
  running : Bool
  move_count : Nat
  x_pieces : Int
  o_pieces : Int

/-- Loop-state at the top of `play_game`. -/
def initLoopSt : LoopSt := ⟨true, 0, 0, 0⟩

/-- The game loop of `play_game` (lines 152-204) over a script of
iterations.  The script ends exactly when `state.is_game_over()` becomes
true; the loop can exit earlier only because `running` went false, and
the check `if not self.running: return None` right after the agent call
is the in-loop early return. -/
def runLoop : List LoopEvent → LoopSt → LoopSt
  | [], st => st
  | e :: rest, st =>
    if st.running then
      match e with
      | .pauseTick r => runLoop rest { st with running := r }
      | .passTurn => runLoop rest st
      | .agentTurn mv rCall xp op rDelay =>
        if rCall then
          match mv with
          | some _ => runLoop rest
              { st with move_count := st.move_count + 1,
                        x_pieces := xp, o_pieces := op, running := rDelay }
          | none => runLoop rest st
        else { st with running := false }
    else st

/-- A whole game as the loop observes it: the iteration script and the
winner `state.get_winner()` reports if the game runs to completion. -/
structure GameScript where
  events : List LoopEvent
  winner : Int

/-- A script during which the `running` flag never goes false: the game
runs to completion. -/
def noCancel (sc : GameScript) : Prop :=
  (runLoop sc.events initLoopSt).running = true

/-- Per-identity tournament bookkeeping: one value of the
`self.results[name]` dict. -/
structure AgentStats where
  wins : Nat
  losses : Nat
  draws : Nat
  avg_pieces : Int
  games_played : Nat

/-- The results table, keyed by agent identity.  The Python dict has
exactly the two configured identities as keys and is only ever indexed
at them; a total function is the faithful view of those lookups. -/
abbrev Results := String → AgentStats

/-- A fresh per-identity row: all counters zero (lines 41-42 and
255-256). -/
def initAgentStats : AgentStats := ⟨0, 0, 0, 0, 0⟩

/-- The freshly reset results table of `run_tournament` lines 255-256. -/
def initResults : Results := fun _ => initAgentStats

/-- Point update of one identity's row: `self.results[k][...] = ...`. -/
def updateRes (res : Results) (k : String) (f : AgentStats → AgentStats) : Results :=
  fun n => if n = k then f (res n) else res n

/-- `play_game` lines 126-131: which identity holds the X (`+1`) color
this game. -/
def x_player_of (agent1_name agent2_name : String) (forward : Bool) : String :=
  if forward then agent1_name else agent2_name

/-- `play_game` lines 126-131: which identity holds the O (`-1`) color
this game. -/
def o_player_of (agent1_name agent2_name : String) (forward : Bool) : String :=
  if forward then agent2_name else agent1_name

/-- The bookkeeping block of `play_game` (lines 209-236): cumulative
pieces and games for both identities, then exactly one of
win/loss (winner `1` or `-1`) or a draw for each (any other winner
value). -/
def applyResult (winner : Int) (x_pieces o_pieces : Int) (x_agent o_agent : String)
    (res : Results) : Results :=
  let res1 := updateRes res x_agent
    (fun s => { s with avg_pieces := s.avg_pieces + x_pieces })
  let res2 := updateRes res1 o_agent
    (fun s => { s with avg_pieces := s.avg_pieces + o_pieces })
  let res3 := updateRes res2 x_agent
    (fun s => { s with games_played := s.games_played + 1 })
  let res4 := updateRes res3 o_agent
    (fun s => { s with games_played := s.games_played + 1 })
  if winner = 1 then
    updateRes (updateRes res4 x_agent (fun s => { s with wins := s.wins + 1 }))
      o_agent (fun s => { s with losses := s.losses + 1 })
  else if winner = -1 then
    updateRes (updateRes res4 o_agent (fun s => { s with wins := s.wins + 1 }))
      x_agent (fun s => { s with losses := s.losses + 1 })
  else
    updateRes (updateRes res4 x_agent (fun s => { s with draws := s.draws + 1 }))
      o_agent (fun s => { s with draws := s.draws + 1 })

/-- The result dict `play_game` returns for a completed game. -/
structure GameResult where
  winner : Int
  x_pieces : Int
  o_pieces : Int
  move_count : Nat

/-- `play_game` (lines 121-247): run the loop; if `running` is false
when the loop is left (the in-loop `return None` after the agent call,
or the check at line 206) return `None` with the results untouched;
otherwise record the outcome for the two identities by their color this
game and return the result dict. -/
def play_game (sc : GameScript) (agent1_name agent2_name : String) (forward : Bool)
    (res : Results) : Option GameResult × Results :=
  let current_x_player := x_player_of agent1_name agent2_name forward
  let current_o_player := o_player_of agent1_name agent2_name forward
  let st := runLoop sc.events initLoopSt
  if st.running then
    (some ⟨sc.winner, st.x_pieces, st.o_pieces, st.move_count⟩,
      applyResult sc.winner st.x_pieces st.o_pieces current_x_player current_o_player res)
  else (none, res)

/-- One round of `run_tournament` (the `for game_num in range(...)`
loops at lines 259-266 and 272-279): play the games in order, stopping
as soon as a game returns no result (which happens exactly when
`running` went false).  The boolean is whether the round ran to
completion. -/
def run_round : List GameScript → String → String → Bool → Results → Results × Bool
  | [], _, _, _, res => (res, true)
  | sc :: rest, a1, a2, fwd, res =>
    match play_game sc a1 a2 fwd res with
    | (none, res2) => (res2, false)
    | (some _, res2) => run_round rest a1 a2 fwd res2

/-- `run_tournament` (lines 249-302): reset the results, play Round 1
with `algo1` as X (`forward=True`), and — unless cancelled — Round 2
with the colors swapped (`forward=False`).  The value is the results
table the method leaves behind for validation, reporting and the UI's
final-results screen. -/
def run_tournament (scripts1 scripts2 : List GameScript) (algo1 algo2 : String) :
    Results :=
  let p1 := run_round scripts1 algo1 algo2 true initResults
  if p1.2 then (run_round scripts2 algo1 algo2 false p1.1).1 else p1.1

/-- Shorthand for the bookkeeping invariant `wins + losses + draws`. -/
def sumWLD (res : Results) (k : String) : Nat :=
  (res k).wins + (res k).losses + (res k).draws

/-- The per-game color assignments of one round: `games_per_match`
games, each with the same X/O identities. -/
def round_assignments (a1 a2 : String) (forward : Bool) (n : Nat) :
    List (String × String) :=
  List.replicate n (x_player_of a1 a2 forward, o_player_of a1 a2 forward)

/-- The per-game color assignments of a whole tournament: Round 1
forward, Round 2 reversed. -/
def tournament_assignments (a1 a2 : String) (n : Nat) : List (String × String) :=
  round_assignments a1 a2 true n ++ round_assignments a1 a2 false n

/-- Which identity moves first in a game, given the configured
first-player marker: `AtaxxState` is created with `current_player =
self.first_player`, and the X identity owns player `+1` (lines 124 and
167-170), so the X holder moves first iff the marker is `1`. -/
def first_mover (first_player : Int) (x_holder o_holder : String) : String :=
  if first_player = 1 then x_holder else o_holder

/-! ## Theorems -/

/-- Looking a key up after an upsert: the inserted key now maps to the
new value, all other keys are unaffected. -/
theorem dictLookup_dictInsert (d : List (Move × Int)) (k : Move) (v : Int) (m : Move) :
    dictLookup (dictInsert d k v) m = if k = m then some v else dictLookup d m := by
  induction d with
  | nil =>
    by_cases h : k = m <;> simp [dictInsert, dictLookup, h]
  | cons p rest ih =>
    obtain ⟨k1, v1⟩ := p
    by_cases h1 : k1 = k
    · subst h1
      by_cases h : k1 = m <;> simp [dictInsert, dictLookup, h]
    · by_cases h2 : k1 = m
      · subst h2
        have h3 : ¬k = k1 := fun hh => h1 hh.symm
        simp [dictInsert, dictLookup, h1, h3]
      · by_cases h3 : k = m
        · subst h3
          simp [dictInsert, dictLookup, h1, h2, ih]
        · simp [dictInsert, dictLookup, h1, h2, h3, ih]

/-- Bulk update followed by lookup: the last entry of the update list
for the key wins, and keys the list does not mention read from the
original dict. -/
theorem dictLookup_dictUpdate (l : List (Move × Int)) (d : List (Move × Int)) (m : Move) :
    dictLookup (dictUpdate d l) m =
      (match lastEntry l m with
       | some w => some w
       | none => dictLookup d m) := by
  induction l generalizing d with
  | nil => simp [dictUpdate, lastEntry]
  | cons p rest ih =>
    obtain ⟨k, v⟩ := p
    have hstep : dictUpdate d ((k, v) :: rest) = dictUpdate (dictInsert d k v) rest := rfl
    rw [hstep, ih]
    rcases hle : lastEntry rest m with _ | w
    · simp only [lastEntry, hle, dictLookup_dictInsert]
      by_cases h : k = m <;> simp [h]
    · simp [lastEntry, hle]

/-- Running writes against an enabled store: the flag and name are left
alone and the score dict receives every written pair, in order. -/
theorem applyRecOps_enabled (ops : List RecOp) (s : MoveScoreManager)
    (h : s.enabled = true) :
    applyRecOps ops s =
      { scores := dictUpdate s.scores (flattenRecOps ops),
        enabled := true, agent_name := s.agent_name } := by
  induction ops generalizing s with
  | nil =>
    obtain ⟨sc, en, an⟩ := s
    subst h
    simp [applyRecOps, flattenRecOps, dictUpdate]
  | cons op rest ih =>
    have hstep : applyRecOps (op :: rest) s = applyRecOps rest (applyRecOp s op) := by
      simp [applyRecOps]
    rw [hstep]
    cases op with
    | store m v =>
      have h2 : applyRecOp s (.store m v) =
          { s with scores := dictInsert s.scores m v } := by
        simp [applyRecOp, store_move_score, h]
      have h3 := ih { s with scores := dictInsert s.scores m v } h
      rw [h2, h3]
      simp [flattenRecOps, dictUpdate]
    | storeMany l =>
      have h2 : applyRecOp s (.storeMany l) =
          { s with scores := dictUpdate s.scores l } := by
        simp [applyRecOp, store_move_scores, h]
      have h3 := ih { s with scores := dictUpdate s.scores l } h
      rw [h2, h3]
      simp [flattenRecOps, dictUpdate, List.foldl_append]

/-- Running writes against a disabled store is a no-op: every branch of
`store_move_score` / `store_move_scores` checks `_enabled` first. -/
theorem applyRecOps_disabled (ops : List RecOp) (s : MoveScoreManager)
    (h : s.enabled = false) :
    applyRecOps ops s = s := by
  induction ops with
  | nil => rfl
  | cons op rest ih =>
    have hstep : applyRecOps (op :: rest) s = applyRecOps rest (applyRecOp s op) := by
      simp [applyRecOps]
    have h2 : applyRecOp s op = s := by
      cases op <;> simp [applyRecOp, store_move_score, store_move_scores, h]
    rw [hstep, h2, ih]

/-- C2: after `enable` (which clears all prior entries) followed by any
sequence of `record` / `record_many` writes and then `disable`, reading
the store returns exactly the recorded entries with the last write per
move winning; `disable` marks collection inactive and clears the
currently-thinking name but does not clear the entries; writes against a
disabled store leave the entry dict unchanged; and after `clear` the
store reads back empty. -/
theorem c2_score_store (s0 : MoveScoreManager) (name : String) (ops : List RecOp)
    (m : Move) :
    dictLookup (get_move_scores
        (disable_score_collection (applyRecOps ops (enable_score_collection name s0)))) m
      = lastWrite ops m ∧
    (disable_score_collection (applyRecOps ops (enable_score_collection name s0))).scores
      = (applyRecOps ops (enable_score_collection name s0)).scores ∧
    (disable_score_collection (applyRecOps ops (enable_score_collection name s0))).enabled
      = false ∧
    (disable_score_collection (applyRecOps ops (enable_score_collection name s0))).agent_name
      = "" ∧
    (∀ (m2 : Move) (v : Int) (s : MoveScoreManager),
      (store_move_score m2 v (disable_score_collection s)).scores
        = (disable_score_collection s).scores) ∧
    (∀ (l : List (Move × Int)) (s : MoveScoreManager),
      (store_move_scores l (disable_score_collection s)).scores
        = (disable_score_collection s).scores) ∧
    (∀ s : MoveScoreManager, get_move_scores (clear_scores s) = []) := by
  have hen : (enable_score_collection name s0).enabled = true := rfl
  have hrun := applyRecOps_enabled ops (enable_score_collection name s0) hen
  refine ⟨?_, ?_, ?_, ?_, ?_, ?_, ?_⟩
  · rw [show get_move_scores
        (disable_score_collection (applyRecOps ops (enable_score_collection name s0)))
        = (applyRecOps ops (enable_score_collection name s0)).scores from rfl]
    rw [hrun]
    show dictLookup (dictUpdate [] (flattenRecOps ops)) m = lastWrite ops m
    rw [dictLookup_dictUpdate]
    unfold lastWrite
    rcases lastEntry (flattenRecOps ops) m with _ | w
    all_goals simp [dictLookup]
  · rfl
  · rfl
  · rfl
  · intro m2 v s
    simp [store_move_score, disable_score_collection]
  · intro l s
    simp [store_move_scores, disable_score_collection]
  · intro s
    rfl

/-- C8: around each agent turn, the game loop enables collection scoped
to exactly the moving agent's name, the writes of `get_move` happen
against the enabled store, and collection is disabled afterwards
unconditionally (the `finally` makes the turn independent of whether
`get_move` raised); between turns every write is a no-op; and the store
observable during or after turn N+1 is determined by turn N+1's own
writes alone, so no score recorded in turn N can still be accepted into
the store during turn N+1. -/
theorem c8_enable_disable_bracketing (s : MoveScoreManager) (name1 name2 : String)
    (ops1 ops2 : List RecOp) (raised1 raised2 : Bool) (m : Move) :
    (applyRecOps ops1 (enable_score_collection name1 s)).agent_name = name1 ∧
    (applyRecOps ops1 (enable_score_collection name1 s)).enabled = true ∧
    (runTurn name1 ops1 raised1 s).enabled = false ∧
    (runTurn name1 ops1 raised1 s).agent_name = "" ∧
    (∀ r2 : Bool, runTurn name1 ops1 raised1 s = runTurn name1 ops1 r2 s) ∧
    (∀ ops : List RecOp,
      applyRecOps ops (runTurn name1 ops1 raised1 s) = runTurn name1 ops1 raised1 s) ∧
    dictLookup (runTurn name2 ops2 raised2 (runTurn name1 ops1 raised1 s)).scores m
      = lastWrite ops2 m := by
  have hen : ∀ t : MoveScoreManager, (enable_score_collection name1 t).enabled = true :=
    fun _ => rfl
  have hrun := applyRecOps_enabled ops1 (enable_score_collection name1 s) (hen s)
  refine ⟨?_, ?_, ?_, ?_, fun r2 => rfl, ?_, ?_⟩
  · rw [hrun]
    rfl
  · rw [hrun]
  · rfl
  · rfl
  · intro ops
    exact applyRecOps_disabled ops _ rfl
  · have hen2 : (enable_score_collection name2 (runTurn name1 ops1 raised1 s)).enabled
        = true := rfl
    have hrun2 := applyRecOps_enabled ops2 _ hen2
    show dictLookup (applyRecOps ops2
        (enable_score_collection name2 (runTurn name1 ops1 raised1 s))).scores m
      = lastWrite ops2 m
    rw [hrun2]
    show dictLookup (dictUpdate [] (flattenRecOps ops2)) m = lastWrite ops2 m
    rw [dictLookup_dictUpdate]
    unfold lastWrite
    rcases lastEntry (flattenRecOps ops2) m with _ | w
    all_goals simp [dictLookup]

/-- C1: the hybrid dispatch agent delegates to the tactical
(minimax/alpha-beta) strategy iff the empty-cell count exceeds the
transition threshold, to the sampling (MCTS) strategy iff it does not,
and the dispatcher state after the call is unchanged, so the choice is a
pure function of the current state's empty-cell count alone — no
hysteresis. -/
theorem c1_hybrid_dispatch (a : ABMCTSDomainAgentState) (empty_cells : Int) :
    ((abmcts_get_move a empty_cells).1 = .abAgent ↔
      empty_cells > a.transition_threshold) ∧
    ((abmcts_get_move a empty_cells).1 = .mctsAgent ↔
      empty_cells ≤ a.transition_threshold) ∧
    (abmcts_get_move a empty_cells).2 = a := by
  unfold abmcts_get_move
  by_cases h : empty_cells > a.transition_threshold
  · simp [h]
  · simp [h]
    omega

/-- C10: the first-moving player marker is `+1` (Black/X) iff the
configured string is exactly `"B"`, and `-1` (White/O) for every other
string, including `"X"`, `"W"`, lowercase `"b"` and the empty string; in
particular the UI layer's default `"X"` selects the `-1` player. -/
theorem c10_first_player_marker :
    (∀ s : String, (first_player_marker s = 1 ↔ s = "B") ∧
      (first_player_marker s = -1 ↔ s ≠ "B")) ∧
    first_player_marker "X" = -1 ∧
    first_player_marker "W" = -1 ∧
    first_player_marker "b" = -1 ∧
    first_player_marker "" = -1 ∧
    ui_default_first_player = "X" ∧
    first_player_marker ui_default_first_player = -1 := by
  refine ⟨fun s => ?_, by decide, by decide, by decide, by decide, rfl, by decide⟩
  by_cases h : s = "B"
  · simp [first_player_marker, h]
  · simp [first_player_marker, h]

/-- Reading an updated row at its own key. -/
theorem updateRes_same (res : Results) (k : String) (f : AgentStats → AgentStats) :
    updateRes res k f k = f (res k) := by
  simp [updateRes]

/-- Reading an updated row at a different key. -/
theorem updateRes_other (res : Results) (k : String) (f : AgentStats → AgentStats)
    (n : String) (h : n ≠ k) : updateRes res k f n = res n := by
  simp [updateRes, h]

/-- The bookkeeping block of a completed game gives each of the two
(distinct) participating identities exactly one more game played and
exactly one more win, loss or draw. -/
theorem applyResult_stats (winner x_pieces o_pieces : Int) (xA oA : String)
    (res : Results) (hne : xA ≠ oA) :
    ((applyResult winner x_pieces o_pieces xA oA res) xA).games_played
      = (res xA).games_played + 1 ∧
    ((applyResult winner x_pieces o_pieces xA oA res) oA).games_played
      = (res oA).games_played + 1 ∧
    sumWLD (applyResult winner x_pieces o_pieces xA oA res) xA = sumWLD res xA + 1 ∧
    sumWLD (applyResult winner x_pieces o_pieces xA oA res) oA = sumWLD res oA + 1 := by
  by_cases h1 : winner = 1
  · simp [applyResult, updateRes, sumWLD, h1, hne, Ne.symm hne]
    omega
  · by_cases h2 : winner = -1
    · simp [applyResult, updateRes, sumWLD, h1, h2, hne, Ne.symm hne]
      omega
    · simp [applyResult, updateRes, sumWLD, h1, h2, hne, Ne.symm hne]
      omega

/-- A game whose script never drops the running flag completes: it
returns a result dict and records it. -/
theorem play_game_complete (sc : GameScript) (a1 a2 : String) (fwd : Bool)
    (res : Results) (h : noCancel sc) :
    play_game sc a1 a2 fwd res =
      (some ⟨sc.winner, (runLoop sc.events initLoopSt).x_pieces,
          (runLoop sc.events initLoopSt).o_pieces,
          (runLoop sc.events initLoopSt).move_count⟩,
        applyResult sc.winner (runLoop sc.events initLoopSt).x_pieces
          (runLoop sc.events initLoopSt).o_pieces
          (x_player_of a1 a2 fwd) (o_player_of a1 a2 fwd) res) := by
  unfold noCancel at h
  simp [play_game, h]

/-- A game whose script drops the running flag returns no result and
leaves the results table untouched. -/
theorem play_game_cancelled (sc : GameScript) (a1 a2 : String) (fwd : Bool)
    (res : Results) (h : (runLoop sc.events initLoopSt).running = false) :
    play_game sc a1 a2 fwd res = (none, res) := by
  simp [play_game, h]

/-- Counter deltas of one completed game, stated for the two configured
identities (each holds one of the two colors, whichever the direction). -/
theorem play_game_counts (sc : GameScript) (a1 a2 : String) (fwd : Bool)
    (res : Results) (hne : a1 ≠ a2) (h : noCancel sc) :
    ((play_game sc a1 a2 fwd res).2 a1).games_played = (res a1).games_played + 1 ∧
    ((play_game sc a1 a2 fwd res).2 a2).games_played = (res a2).games_played + 1 ∧
    sumWLD (play_game sc a1 a2 fwd res).2 a1 = sumWLD res a1 + 1 ∧
    sumWLD (play_game sc a1 a2 fwd res).2 a2 = sumWLD res a2 + 1 := by
  rw [play_game_complete sc a1 a2 fwd res h]
  cases fwd with
  | false =>
    have hs := applyResult_stats sc.winner (runLoop sc.events initLoopSt).x_pieces
      (runLoop sc.events initLoopSt).o_pieces a2 a1 res (Ne.symm hne)
    exact ⟨hs.2.1, hs.1, hs.2.2.2, hs.2.2.1⟩
  | true =>
    have hs := applyResult_stats sc.winner (runLoop sc.events initLoopSt).x_pieces
      (runLoop sc.events initLoopSt).o_pieces a1 a2 res hne
    exact ⟨hs.1, hs.2.1, hs.2.2.1, hs.2.2.2⟩

/-- A round all of whose games complete reports completion. -/
theorem run_round_ok (a1 a2 : String) (fwd : Bool) :
    ∀ (scripts : List GameScript) (res : Results), (∀ sc ∈ scripts, noCancel sc) →
    (run_round scripts a1 a2 fwd res).2 = true := by
  intro scripts
  induction scripts with
  | nil => intro res _; rfl
  | cons sc rest ih =>
    intro res hnc
    have h1 : noCancel sc := hnc sc (List.mem_cons_self _ _)
    have hcomp := play_game_complete sc a1 a2 fwd res h1
    simp only [run_round, hcomp]
    exact ih _ (fun s hs => hnc s (List.mem_cons_of_mem _ hs))

/-- Counter deltas of a fully completed round: each identity gains the
round's game count in games played and in win+loss+draw total. -/
theorem run_round_counts (a1 a2 : String) (fwd : Bool) (hne : a1 ≠ a2) :
    ∀ (scripts : List GameScript) (res : Results), (∀ sc ∈ scripts, noCancel sc) →
    ((run_round scripts a1 a2 fwd res).1 a1).games_played
      = (res a1).games_played + scripts.length ∧
    ((run_round scripts a1 a2 fwd res).1 a2).games_played
      = (res a2).games_played + scripts.length ∧
    sumWLD (run_round scripts a1 a2 fwd res).1 a1 = sumWLD res a1 + scripts.length ∧
    sumWLD (run_round scripts a1 a2 fwd res).1 a2 = sumWLD res a2 + scripts.length := by
  intro scripts
  induction scripts with
  | nil => intro res _; simp [run_round]
  | cons sc rest ih =>
    intro res hnc
    have h1 : noCancel sc := hnc sc (List.mem_cons_self _ _)
    have hcomp := play_game_complete sc a1 a2 fwd res h1
    have hcnt := play_game_counts sc a1 a2 fwd res hne h1
    have hstep : run_round (sc :: rest) a1 a2 fwd res
        = run_round rest a1 a2 fwd (play_game sc a1 a2 fwd res).2 := by
      simp only [run_round, hcomp]
    have hih := ih (play_game sc a1 a2 fwd res).2
      (fun s hs => hnc s (List.mem_cons_of_mem _ hs))
    obtain ⟨c1, c2, c3, c4⟩ := hcnt
    obtain ⟨d1, d2, d3, d4⟩ := hih
    rw [hstep]
    refine ⟨?_, ?_, ?_, ?_⟩ <;> simp only [List.length_cons] <;> omega

/-- C3: in a completed tournament between two distinct identities with
games_per_match = N, each identity plays exactly 2N games, each
identity's wins + losses + draws equals its games played, the games
played summed over the two identities is 2 x N x 2, and each completed
game gives both participating identities exactly one more game and one
more win/loss/draw. -/
theorem c3_tournament_bookkeeping (N : Nat) (s1 s2 : List GameScript) (a1 a2 : String)
    (hne : a1 ≠ a2) (h1 : s1.length = N) (h2 : s2.length = N)
    (hnc1 : ∀ sc ∈ s1, noCancel sc) (hnc2 : ∀ sc ∈ s2, noCancel sc) :
    ((run_tournament s1 s2 a1 a2) a1).games_played = 2 * N ∧
    ((run_tournament s1 s2 a1 a2) a2).games_played = 2 * N ∧
    sumWLD (run_tournament s1 s2 a1 a2) a1
      = ((run_tournament s1 s2 a1 a2) a1).games_played ∧
    sumWLD (run_tournament s1 s2 a1 a2) a2
      = ((run_tournament s1 s2 a1 a2) a2).games_played ∧
    ((run_tournament s1 s2 a1 a2) a1).games_played
      + ((run_tournament s1 s2 a1 a2) a2).games_played = 2 * N * 2 ∧
    (∀ (sc : GameScript) (res : Results) (fwd : Bool), noCancel sc →
      ((play_game sc a1 a2 fwd res).2 a1).games_played = (res a1).games_played + 1 ∧
      ((play_game sc a1 a2 fwd res).2 a2).games_played = (res a2).games_played + 1 ∧
      sumWLD (play_game sc a1 a2 fwd res).2 a1 = sumWLD res a1 + 1 ∧
      sumWLD (play_game sc a1 a2 fwd res).2 a2 = sumWLD res a2 + 1) := by
  have hok := run_round_ok a1 a2 true s1 initResults hnc1
  have hT : run_tournament s1 s2 a1 a2
      = (run_round s2 a1 a2 false (run_round s1 a1 a2 true initResults).1).1 := by
    simp [run_tournament, hok]
  obtain ⟨e1, e2, e3, e4⟩ := run_round_counts a1 a2 true hne s1 initResults hnc1
  obtain ⟨f1, f2, f3, f4⟩ :=
    run_round_counts a1 a2 false hne s2 (run_round s1 a1 a2 true initResults).1 hnc2
  have gi1 : (initResults a1).games_played = 0 := rfl
  have gi2 : (initResults a2).games_played = 0 := rfl
  have gi3 : sumWLD initResults a1 = 0 := rfl
  have gi4 : sumWLD initResults a2 = 0 := rfl
  rw [hT]
  refine ⟨?_, ?_, ?_, ?_, ?_,
    fun sc res fwd hsc => play_game_counts sc a1 a2 fwd res hne hsc⟩ <;> omega

/-- C3 witness: a concrete 1-game-per-round tournament between "A" and
"B" in which every game completes immediately as a draw. -/
theorem c3_witness :
    ((run_tournament [⟨[], 0⟩] [⟨[], 0⟩] "A" "B") "A").games_played = 2 * 1 :=
  (c3_tournament_bookkeeping 1 [⟨[], 0⟩] [⟨[], 0⟩] "A" "B" (by decide) rfl rfl
    (by intro sc hsc
        obtain rfl := List.mem_singleton.mp hsc
        rfl)
    (by intro sc hsc
        obtain rfl := List.mem_singleton.mp hsc
        rfl)).1

/-- C4: Round 1 assigns the X color to the first identity and O to the
second for every one of its N games, Round 2 swaps the assignment for
every one of its N games, and — whatever the fixed configured
first-player marker — each of the two (distinct) identities holds the
first-moving color in exactly N of the 2N games. -/
theorem c4_color_swap (a1 a2 : String) (n : Nat) (fp : Int) (hne : a1 ≠ a2) :
    (∀ p ∈ round_assignments a1 a2 true n, p = (a1, a2)) ∧
    (∀ p ∈ round_assignments a1 a2 false n, p = (a2, a1)) ∧
    ((tournament_assignments a1 a2 n).map (fun p => first_mover fp p.1 p.2)).count a1
      = n ∧
    ((tournament_assignments a1 a2 n).map (fun p => first_mover fp p.1 p.2)).count a2
      = n := by
  refine ⟨fun p hp => List.eq_of_mem_replicate hp,
    fun p hp => List.eq_of_mem_replicate hp, ?_, ?_⟩
  all_goals
    by_cases hfp : fp = 1 <;>
      simp [tournament_assignments, round_assignments, x_player_of, o_player_of,
        first_mover, hfp, List.count_append, List.count_replicate, hne, Ne.symm hne]

/-- C4 witness: the concrete 2-games-per-round tournament between "A"
and "B" with Black (X) configured to move first. -/
theorem c4_witness :
    ((tournament_assignments "A" "B" 2).map
      (fun p => first_mover 1 p.1 p.2)).count "A" = 2 :=
  (c4_color_swap "A" "B" 2 1 (by decide)).2.2.1

/-- A round reaching a cancelled game stops right there: the games
before it are recorded, the cancelled one and everything after it are
not, and the round reports non-completion. -/
theorem run_round_stop (a1 a2 : String) (fwd : Bool) (sc : GameScript)
    (hc : (runLoop sc.events initLoopSt).running = false) :
    ∀ (pres rest : List GameScript) (res : Results), (∀ s ∈ pres, noCancel s) →
    run_round (pres ++ sc :: rest) a1 a2 fwd res
      = ((run_round pres a1 a2 fwd res).1, false) := by
  intro pres
  induction pres with
  | nil =>
    intro rest res _
    have hpg := play_game_cancelled sc a1 a2 fwd res hc
    simp [run_round, hpg]
  | cons p ps ih =>
    intro rest res hnc
    have h1 : noCancel p := hnc p (List.mem_cons_self _ _)
    have hcomp := play_game_complete p a1 a2 fwd res h1
    have hstep1 : run_round ((p :: ps) ++ sc :: rest) a1 a2 fwd res
        = run_round (ps ++ sc :: rest) a1 a2 fwd (play_game p a1 a2 fwd res).2 := by
      simp only [List.cons_append, run_round, hcomp]
      rfl
    have hstep2 : run_round (p :: ps) a1 a2 fwd res
        = run_round ps a1 a2 fwd (play_game p a1 a2 fwd res).2 := by
      simp only [run_round, hcomp]
    rw [hstep1, hstep2]
    exact ih rest _ (fun s hs => hnc s (List.mem_cons_of_mem _ hs))

/-- C7: if the running flag is false after the agent call (it became
false while the call was pending), the current game returns no result
and leaves the results table exactly as it was; the round loop stops at
that game (later games of the round are never played); and the
tournament's final results table is exactly the one accumulated from
the games completed before the cancellation — whether the cancellation
hits Round 1 (Round 2 is then never played, whatever its scripts) or
Round 2 — so previously recorded results survive unchanged in the table
handed to reporting. -/
theorem c7_cancellation (a1 a2 : String) (fwd : Bool) (res : Results) (sc : GameScript)
    (hc : (runLoop sc.events initLoopSt).running = false) :
    play_game sc a1 a2 fwd res = (none, res) ∧
    (∀ (pres rest : List GameScript), (∀ s ∈ pres, noCancel s) →
      run_round (pres ++ sc :: rest) a1 a2 fwd res
        = ((run_round pres a1 a2 fwd res).1, false)) ∧
    (∀ (pres rest s2 : List GameScript), (∀ s ∈ pres, noCancel s) →
      run_tournament (pres ++ sc :: rest) s2 a1 a2
        = (run_round pres a1 a2 true initResults).1) ∧
    (∀ (s1 pres rest : List GameScript),
      (∀ s ∈ s1, noCancel s) → (∀ s ∈ pres, noCancel s) →
      run_tournament s1 (pres ++ sc :: rest) a1 a2
        = (run_round pres a1 a2 false (run_round s1 a1 a2 true initResults).1).1) := by
  refine ⟨play_game_cancelled sc a1 a2 fwd res hc,
    fun pres rest hnc => run_round_stop a1 a2 fwd sc hc pres rest res hnc, ?_, ?_⟩
  · intro pres rest s2 hnc
    have hstop := run_round_stop a1 a2 true sc hc pres rest initResults hnc
    simp [run_tournament, hstop]
  · intro s1 pres rest hnc1 hnc
    have hok := run_round_ok a1 a2 true s1 initResults hnc1
    have hstop := run_round_stop a1 a2 false sc hc pres rest
      (run_round s1 a1 a2 true initResults).1 hnc
    simp [run_tournament, hok, hstop]

/-- C7 witness: a concrete game whose script drops the running flag at
its first suspension point is abandoned with no result and an untouched
results table. -/
theorem c7_witness :
    play_game ⟨[.pauseTick false], 0⟩ "A" "B" true initResults = (none, initResults) :=
  (c7_cancellation "A" "B" true initResults ⟨[.pauseTick false], 0⟩ (by decide)).1

/-- Characters of an initial segment are characters of the list. -/
theorem startsWithSeg_mem : ∀ (sub l : List Char),
    startsWithSeg sub l = true → ∀ c ∈ sub, c ∈ l := by
  intro sub
  induction sub with
  | nil => intro l _ c hc; cases hc
  | cons d ds ih =>
    intro l h c hc
    cases l with
    | nil => simp [startsWithSeg] at h
    | cons e es =>
      simp only [startsWithSeg, Bool.and_eq_true, decide_eq_true_eq] at h
      rcases List.mem_cons.mp hc with rfl | hc2
      · exact h.1 ▸ List.mem_cons_self e es
      · exact List.mem_cons_of_mem e (ih es h.2 c hc2)

/-- Characters of a contiguous substring are characters of the list. -/
theorem hasSubSeg_mem : ∀ (l sub : List Char),
    hasSubSeg sub l = true → ∀ c ∈ sub, c ∈ l := by
  intro l
  induction l with
  | nil =>
    intro sub h c hc
    cases sub with
    | nil => cases hc
    | cons d ds => simp [hasSubSeg] at h
  | cons d ds ih =>
    intro sub h c hc
    simp only [hasSubSeg, Bool.or_eq_true] at h
    rcases h with h | h
    · exact startsWithSeg_mem sub (d :: ds) h c hc
    · exact List.mem_cons_of_mem d (ih sub h c hc)

/-- A name containing an underscore-bearing marker contains an
underscore, so the `'_' in algo_name` test of `setup_game` succeeds. -/
theorem contains_underscore_of_marker (name marker : String)
    (hu : '_' ∈ marker.data) (h : containsSubstr name marker = true) :
    '_' ∈ name.data :=
  hasSubSeg_mem name.data marker.data h '_' hu

/-- C5 counterexample: the identity string "MCTS_Domain" contains the
MCTS-domain marker and carries no numeric suffix, so by the claim it
should resolve to the domain-augmented sampling strategy with the
configured default iteration budget; instead `setup_game` evaluates
`int("Domain")`, which raises `ValueError` — resolution fails. -/
theorem c5_counterexample :
    resolveAgent ⟨300, 13, 4, false⟩ "MCTS_Domain"
      = .error (.intValueError "Domain") := rfl

/-- C5 (amended): `Minimax`/`Minimax+AB` resolve to the tactical
strategy, `MCTS` to the baseline sampling strategy; a name containing
the AB+MCTS-domain (resp. MCTS-domain) marker has its last
underscore-separated token parsed as an integer, which overrides the
configured default iteration budget — the default applies only to
marker names without any underscore, which cannot exist since the
markers themselves contain one, so a marker name whose last token is
not numeric raises a `ValueError` instead of falling back to the
default; and any unrecognized name raises the fatal
unknown-algorithm error.  All of this happens in `setup_game`, i.e.
during construction, before any game starts. -/
theorem c5_amended_resolution (cfg : TournamentConfig) :
    resolveAgent cfg "Minimax" = .ok (.minimaxAgent cfg.depths) ∧
    resolveAgent cfg "Minimax+AB" = .ok (.minimaxAgent cfg.depths) ∧
    resolveAgent cfg "MCTS" = .ok (.mctsAgent cfg.iterations) ∧
    (∀ (name : String) (n : Nat), containsSubstr name "AB+MCTS_Domain" = true →
      pyInt (lastToken name) = some n →
      resolveAgent cfg name = .ok (.abMctsDomainAgent (n : Int)
        cfg.transition_threshold cfg.depths cfg.use_tournament)) ∧
    (∀ name : String, containsSubstr name "AB+MCTS_Domain" = true →
      pyInt (lastToken name) = none →
      resolveAgent cfg name = .error (.intValueError (String.mk (lastToken name)))) ∧
    (∀ (name : String) (n : Nat), containsSubstr name "AB+MCTS_Domain" = false →
      containsSubstr name "MCTS_Domain" = true →
      pyInt (lastToken name) = some n →
      resolveAgent cfg name = .ok (.mctsDomainAgent (n : Int) cfg.use_tournament)) ∧
    (∀ name : String, containsSubstr name "AB+MCTS_Domain" = false →
      containsSubstr name "MCTS_Domain" = true →
      pyInt (lastToken name) = none →
      resolveAgent cfg name = .error (.intValueError (String.mk (lastToken name)))) ∧
    (∀ name : String, name ≠ "Minimax" → name ≠ "Minimax+AB" → name ≠ "MCTS" →
      containsSubstr name "AB+MCTS_Domain" = false →
      containsSubstr name "MCTS_Domain" = false →
      resolveAgent cfg name = .error (.unknownAlgorithm name)) := by
  refine ⟨rfl, rfl, rfl, ?_, ?_, ?_, ?_, ?_⟩
  · intro name n hAB hpi
    have h1 : ¬(name = "Minimax" ∨ name = "Minimax+AB") := by
      rintro (rfl | rfl)
      · exact absurd hAB (by decide)
      · exact absurd hAB (by decide)
    have h2 : ¬(name = "MCTS") := by
      rintro rfl; exact absurd hAB (by decide)
    have hus := contains_underscore_of_marker name "AB+MCTS_Domain" (by decide) hAB
    simp [resolveAgent, iterCount, h1, h2, hAB, hus, hpi]
  · intro name hAB hpi
    have h1 : ¬(name = "Minimax" ∨ name = "Minimax+AB") := by
      rintro (rfl | rfl)
      · exact absurd hAB (by decide)
      · exact absurd hAB (by decide)
    have h2 : ¬(name = "MCTS") := by
      rintro rfl; exact absurd hAB (by decide)
    have hus := contains_underscore_of_marker name "AB+MCTS_Domain" (by decide) hAB
    simp [resolveAgent, iterCount, h1, h2, hAB, hus, hpi]
  · intro name n hABf hD hpi
    have h1 : ¬(name = "Minimax" ∨ name = "Minimax+AB") := by
      rintro (rfl | rfl)
      · exact absurd hD (by decide)
      · exact absurd hD (by decide)
    have h2 : ¬(name = "MCTS") := by
      rintro rfl; exact absurd hD (by decide)
    have hus := contains_underscore_of_marker name "MCTS_Domain" (by decide) hD
    simp [resolveAgent, iterCount, h1, h2, hABf, hD, hus, hpi]
  · intro name hABf hD hpi
    have h1 : ¬(name = "Minimax" ∨ name = "Minimax+AB") := by
      rintro (rfl | rfl)
      · exact absurd hD (by decide)
      · exact absurd hD (by decide)
    have h2 : ¬(name = "MCTS") := by
      rintro rfl; exact absurd hD (by decide)
    have hus := contains_underscore_of_marker name "MCTS_Domain" (by decide) hD
    simp [resolveAgent, iterCount, h1, h2, hABf, hD, hus, hpi]
  · intro name hm1 hm2 hm3 hABf hDf
    have h1 : ¬(name = "Minimax" ∨ name = "Minimax+AB") := by
      rintro (rfl | rfl)
      · exact hm1 rfl
      · exact hm2 rfl
    simp [resolveAgent, h1, hm3, hABf, hDf]

/-- C5 witness: the stock identity "AB+MCTS_Domain_600" resolves to the
hybrid dispatch agent with the embedded budget 600 overriding the
configured default 300. -/
theorem c5_amended_witness :
    resolveAgent ⟨300, 13, 4, false⟩ "AB+MCTS_Domain_600"
      = .ok (.abMctsDomainAgent ((600 : Nat) : Int) 13 4 false) :=
  (c5_amended_resolution ⟨300, 13, 4, false⟩).2.2.2.1 "AB+MCTS_Domain_600" 600
    (by decide) (by decide)

/-- C6 (code-bug evidence): both parsers write 0 — the empty value —
for a `#` character, so a blocked cell is indistinguishable from an
empty one, contradicting the documented cell model (`# = -2 (blocked)`,
`game_ui.py` line 1251, and the renderer's `board[row][col] == -2` test
at line 254): parsing the line "#B" gives 0 at the `#` cell, exactly
what a genuinely empty cell reads; the `game_ui` row parser also drops
unrecognized characters entirely, shifting later columns. -/
theorem c6_blocked_parsed_as_empty :
    load_map_board ["#B"] 0 0 = empty_cell_value ∧
    load_map_board ["#B"] 0 1 = 1 ∧
    load_map_board [""] 0 0 = empty_cell_value ∧
    game_ui_parse_row "#B" = [0, -1] ∧
    game_ui_parse_row "B.W" = [-1, 1] ∧
    empty_cell_value ≠ game_ui_documented_blocked := by
  refine ⟨rfl, rfl, rfl, rfl, rfl, by decide⟩

/-- C9 (code-bug evidence): with a configured map file but no `map`
directory, `setup_game` evaluates `self.map_file in self.available_maps`
with `self.available_maps` never assigned and raises a fatal
`AttributeError` instead of falling back; by contrast, when the
directory exists, an unreadable listed file, a missing file (not
listed), and no configured file at all every one recover to the
hard-coded default board. -/
theorem c9_missing_map_dir_fatal :
    setup_game_board ⟨false, [], fun _ => .fileNotFound⟩ (some "a.txt")
      = .error (.attributeError "available_maps") ∧
    setup_game_board ⟨true, ["a.txt"], fun _ => .otherError⟩ (some "a.txt")
      = .ok get_default_board ∧
    setup_game_board ⟨true, ["a.txt"], fun _ => .fileNotFound⟩ (some "a.txt")
      = .ok get_default_board ∧
    setup_game_board ⟨true, [], fun _ => .fileNotFound⟩ (some "a.txt")
      = .ok get_default_board ∧
    setup_game_board ⟨false, [], fun _ => .fileNotFound⟩ none
      = .ok get_default_board := by
  exact ⟨rfl, rfl, rfl, rfl, rfl⟩
